import Mathlib

/-!
Shallow embedding of the analytics session-reconstruction engine of the
STARTPRO_easy_website repository (the `/analytics` route handler: visitor-key
resolution, two-pass session reconstruction, and aggregation).

JavaScript values that the code tests for truthiness (`user_id`, `ip_address`,
`user_agent`) are modelled by `JSVal`; JS `Map`s (which preserve insertion
order, update in place on existing keys, and append new keys) are modelled by
association lists with `alGet`/`alSet`; JS `Set`s by insertion-ordered
duplicate-free lists; JS number division on the aggregate ratios by `ℚ`;
`Math.round` by floor of `x + 1/2`. The MD5 hex digest is supplied by Node's
`crypto` library, external to the repository, so it is a function parameter
`md5hex` of the embedding.
-/

namespace StartPro

/-- A JavaScript value as far as the handler's truthiness tests observe it:
`null`, a number, or a string. -/
inductive JSVal where
  | null : JSVal
  | num : Int → JSVal
  | str : String → JSVal
deriving DecidableEq, Repr

/-- JS truthiness: `null`, `0` and `""` are falsy. -/
def JSVal.truthy : JSVal → Bool
  | .null => false
  | .num n => n != 0
  | .str s => s != ""

/-- JS `String(v)` on the values that reach it here. -/
def JSVal.toStr : JSVal → String
  | .null => "null"
  | .num n => toString n
  | .str s => s

/-- One row of the `activity_logs` query
(`SELECT al.id, al.resource_id, al.user_id, al.ip_address, al.user_agent,
al.created_at ... ORDER BY al.created_at ASC`); `created_ms` is
`new Date(row.created_at).getTime()`. -/
structure LogRow where
  id : Nat
  resource_id : String
  user_id : JSVal
  ip_address : JSVal
  user_agent : JSVal
  created_ms : Int
deriving DecidableEq, Repr

/-- `buildVisitorId` from the route handler. -/
def buildVisitorId (md5hex : String → String) (row : LogRow) : String :=
  if row.user_id.truthy then row.user_id.toStr
  else if row.ip_address.truthy then row.ip_address.toStr
  else if row.user_agent.truthy then "ua:" ++ (md5hex row.user_agent.toStr).take 12
  else "unknown"

/-- `Map.get`, on the association-list model of a JS `Map`. -/
def alGet {β : Type} : List (String × β) → String → Option β
  | [], _ => none
  | (k', v) :: rest, k => if k' = k then some v else alGet rest k

/-- `Map.set`: update in place when the key exists, append otherwise. -/
def alSet {β : Type} : List (String × β) → String → β → List (String × β)
  | [], k, v => [(k, v)]
  | (k', v') :: rest, k, v =>
      if k' = k then (k, v) :: rest else (k', v') :: alSet rest k v

/-- The per-visitor running state of pass 1 (`{ lastTime, sessionIndex }`). -/
structure VState where
  lastTime : Option Int
  sessionIndex : Nat
deriving DecidableEq, Repr

/-- A positioned event pushed onto `events` in pass 1. -/
structure SEvent where
  resource_id : String
  visitor_id : String
  session_id : String
  created_ms : Int
deriving DecidableEq, Repr

/-- The mutable locals of pass 1 (`visitorState`, `sessionPageCounts`,
`events`), threaded through the loop. -/
structure Pass1Acc where
  visitorState : List (String × VState)
  sessionPageCounts : List (String × Nat)
  events : List SEvent
deriving DecidableEq, Repr

/-- One iteration of the pass-1 `for (const row of viewRows)` loop. -/
def pass1Step (md5hex : String → String) (acc : Pass1Acc) (row : LogRow) : Pass1Acc :=
  let visitorId := buildVisitorId md5hex row
  let createdMs := row.created_ms
  let state := (alGet acc.visitorState visitorId).getD ⟨none, 0⟩
  let newIndex :=
    match state.lastTime with
    | none => state.sessionIndex + 1
    | some lt => if createdMs - lt > 30 * 60 * 1000 then state.sessionIndex + 1 else state.sessionIndex
  let sessionId := visitorId ++ "-" ++ toString newIndex
  { visitorState := alSet acc.visitorState visitorId ⟨some createdMs, newIndex⟩
    sessionPageCounts :=
      alSet acc.sessionPageCounts sessionId ((alGet acc.sessionPageCounts sessionId).getD 0 + 1)
    events := acc.events ++ [⟨row.resource_id, visitorId, sessionId, createdMs⟩] }

/-- Pass 1 over the whole (time-ordered) row list, starting from empty maps. -/
def runPass1 (md5hex : String → String) (rows : List LogRow) : Pass1Acc :=
  rows.foldl (pass1Step md5hex) ⟨[], [], []⟩

/-- Pass 2 grouping: `sessionsMap`, built by pushing each event onto the
list stored under its `session_id`. -/
def groupBySession (evs : List SEvent) : List (String × List SEvent) :=
  evs.foldl (fun m evt => alSet m evt.session_id ((alGet m evt.session_id).getD [] ++ [evt])) []

/-- The weak order of the comparator `(a, b) => a.created_ms - b.created_ms`:
`a` may be placed before `b` exactly when `compare(a, b) ≤ 0`. -/
def sessLe (a b : SEvent) : Prop := a.created_ms ≤ b.created_ms

instance : DecidableRel sessLe := fun _ _ => inferInstanceAs (Decidable (_ ≤ _))

instance : IsTotal SEvent sessLe := ⟨fun a b => Int.le_total a.created_ms b.created_ms⟩

instance : IsTrans SEvent sessLe := ⟨fun _ _ _ h h' => Int.le_trans h h'⟩

/-- `sessionEvents.sort((a, b) => a.created_ms - b.created_ms)`: a stable sort
under the comparator's weak order (JS `Array.prototype.sort` is stable, and a
stable sort under a total preorder is unique, so any stable sort embeds it). -/
def sortSession (l : List SEvent) : List SEvent :=
  l.insertionSort sessLe

/-- `Math.round(num / den)` for a positive integer `den`:
floor of `num / den + 1 / 2`. -/
def jsRoundDiv (num den : Int) : Int := (2 * num + den).fdiv (2 * den)

/-- The duration assigned to `current` when `next` exists:
`Math.min(1800, Math.max(1, Math.round((next.created_ms - current.created_ms) / 1000)))`. -/
def durationOf (cur next : SEvent) : Int :=
  min 1800 (max 1 (jsRoundDiv (next.created_ms - cur.created_ms) 1000))

/-- An element of `eventMetrics`: `{ ...current, duration_seconds }`. -/
structure EventMetric where
  resource_id : String
  visitor_id : String
  session_id : String
  created_ms : Int
  duration_seconds : Int
deriving DecidableEq, Repr

/-- The inner indexed loop of pass 2 over one sorted session group:
duration to the next event when it exists, the fallback `30` for the last. -/
def withDurations : List SEvent → List EventMetric
  | [] => []
  | [e] => [⟨e.resource_id, e.visitor_id, e.session_id, e.created_ms, 30⟩]
  | e :: e' :: rest =>
      ⟨e.resource_id, e.visitor_id, e.session_id, e.created_ms, durationOf e e'⟩
        :: withDurations (e' :: rest)

/-- `eventMetrics`: pass 2 over every session group in map order. -/
def eventMetricsOf (md5hex : String → String) (rows : List LogRow) : List EventMetric :=
  ((groupBySession (runPass1 md5hex rows).events).map
    (fun kv => withDurations (sortSession kv.2))).flatten

/-- A JS `Set`'s insertion: add the element only if absent. -/
def dedupInsert (l : List String) (s : String) : List String :=
  if s ∈ l then l else l ++ [s]

/-- `new Set(ss).size`. -/
def uniqueCount (ss : List String) : Nat := (ss.foldl dedupInsert []).length

/-- `singlePageSessions`: the number of `sessionPageCounts` values equal
to `1`. -/
def singlePageSessionsOf (spc : List (String × Nat)) : Nat :=
  ((spc.map (·.2)).filter (fun c => c = 1)).length

/-- `bounceRatio = totalSessions > 0 ? singlePageSessions / totalSessions : 0`. -/
def bounceRatioOf (spc : List (String × Nat)) : ℚ :=
  if spc.length > 0 then (singlePageSessionsOf spc : ℚ) / (spc.length : ℚ) else 0

/-- `avgDurationSeconds`: the duration sum over the event count, `0` when
there are no events. -/
def avgDurationSecondsOf (ems : List EventMetric) : ℚ :=
  if ems.length > 0 then
    (((ems.map (·.duration_seconds)).sum : ℤ) : ℚ) / (ems.length : ℚ)
  else 0

/-- The `engagementSummary` object. -/
structure EngagementSummary where
  total_sessions : Nat
  total_page_views : Nat
  unique_visitors : Nat
  avg_duration_seconds : ℚ
  bounce_ratio : ℚ
deriving DecidableEq, Repr

/-- A row of the `pages` catalog query (`SELECT id, title, updated_at`);
`updated_ms` is the epoch value of `updated_at`. -/
structure Page where
  id : String
  title : String
  updated_ms : Int
deriving DecidableEq, Repr

/-- The per-page accumulator of the `pageAgg` map. -/
structure PageAgg where
  views : Nat
  durationSum : Int
  uniqueVisitors : List String
  bounceHits : Nat
deriving DecidableEq, Repr

/-- One iteration of the `for (const evt of eventMetrics)` loop building
`pageAgg`. -/
def pageAggStep (spc : List (String × Nat)) (m : List (String × PageAgg))
    (evt : EventMetric) : List (String × PageAgg) :=
  let agg := (alGet m evt.resource_id).getD ⟨0, 0, [], 0⟩
  alSet m evt.resource_id
    { views := agg.views + 1
      durationSum := agg.durationSum + evt.duration_seconds
      uniqueVisitors := dedupInsert agg.uniqueVisitors evt.visitor_id
      bounceHits :=
        agg.bounceHits + (if (alGet spc evt.session_id).getD 0 = 1 then 1 else 0) }

/-- The whole `pageAgg` map. -/
def pageAggOf (spc : List (String × Nat)) (ems : List EventMetric) :
    List (String × PageAgg) :=
  ems.foldl (pageAggStep spc) []

/-- One entry of `pageDetails`. -/
structure PageDetail where
  title : String
  views : Nat
  unique_visitors : Nat
  avg_time : ℚ
  bounce_rate : Int
  updated_ms : Int
deriving DecidableEq, Repr

/-- `Math.round(q)` on a rational modelling the JS number `q`. -/
def jsRoundQ (q : ℚ) : Int := ⌊q + 1 / 2⌋

/-- The `.map(p => ...)` body building one `pageDetails` entry from a catalog
page, with the all-zero default for pages absent from `pageAgg`. -/
def mkPageDetail (pageAgg : List (String × PageAgg)) (p : Page) : PageDetail :=
  let agg := (alGet pageAgg p.id).getD ⟨0, 0, [], 0⟩
  let count := agg.views
  let avgDuration : ℚ := if count > 0 then (agg.durationSum : ℚ) / (count : ℚ) else 0
  let bounceRatioPage : ℚ := if count > 0 then (agg.bounceHits : ℚ) / (count : ℚ) else 0
  { title := p.title
    views := count
    unique_visitors := agg.uniqueVisitors.length
    avg_time := avgDuration
    bounce_rate := jsRoundQ (bounceRatioPage * 100)
    updated_ms := p.updated_ms }

/-- The weak order of the `pageDetails` comparator
`(a, b) => b.views !== a.views ? b.views - a.views : updB - updA`:
`a` may be placed before `b` exactly when `compare(a, b) ≤ 0`, i.e. `a` has
strictly more views, or equal views and an `updated_at` at least as recent. -/
def pageDetailLe (a b : PageDetail) : Prop :=
  b.views < a.views ∨ (b.views = a.views ∧ b.updated_ms ≤ a.updated_ms)

instance : DecidableRel pageDetailLe := fun _ _ =>
  inferInstanceAs (Decidable (_ ∨ _ ∧ _))

instance : IsTotal PageDetail pageDetailLe := by
  constructor
  intro a b
  rcases Nat.lt_trichotomy a.views b.views with h | h | h
  · exact Or.inr (Or.inl h)
  · rcases Int.le_total b.updated_ms a.updated_ms with h' | h'
    · exact Or.inl (Or.inr ⟨h.symm, h'⟩)
    · exact Or.inr (Or.inr ⟨h, h'⟩)
  · exact Or.inl (Or.inl h)

instance : IsTrans PageDetail pageDetailLe := by
  constructor
  rintro a b c (h | ⟨he, hu⟩) (h' | ⟨he', hu'⟩)
  · exact Or.inl (Nat.lt_trans h' h)
  · exact Or.inl (he' ▸ h)
  · exact Or.inl (he ▸ h')
  · exact Or.inr ⟨he'.trans he, Int.le_trans hu' hu⟩

/-- `pageDetails`: map the catalog, stable-sort by the comparator's weak
order, keep the first 20 (`.slice(0, 20)`). -/
def pageDetailsOf (pageAgg : List (String × PageAgg)) (pages : List Page) :
    List PageDetail :=
  ((pages.map (mkPageDetail pageAgg)).insertionSort pageDetailLe).take 20

/-- Everything the handler derives from the view rows and the page catalog. -/
structure AnalyticsResult where
  eventMetrics : List EventMetric
  sessionPageCounts : List (String × Nat)
  summary : EngagementSummary
  pageDetails : List PageDetail
deriving DecidableEq, Repr

/-- The `engagementSummary` built from `sessionPageCounts` and
`eventMetrics` (`totalSessions` is the `Map`'s size, i.e. its number of
keys). -/
def summaryOf (spc : List (String × Nat)) (ems : List EventMetric) :
    EngagementSummary :=
  { total_sessions := spc.length
    total_page_views := ems.length
    unique_visitors := uniqueCount (ems.map (·.visitor_id))
    avg_duration_seconds := avgDurationSecondsOf ems
    bounce_ratio := bounceRatioOf spc }

/-- The session-reconstruction core of the `/analytics` handler: pass 1,
pass 2, overall aggregation, and the per-page rollup. -/
def analyticsOf (md5hex : String → String) (rows : List LogRow) (pages : List Page) :
    AnalyticsResult :=
  let p1 := runPass1 md5hex rows
  let eventMetrics := eventMetricsOf md5hex rows
  { eventMetrics := eventMetrics
    sessionPageCounts := p1.sessionPageCounts
    summary := summaryOf p1.sessionPageCounts eventMetrics
    pageDetails := pageDetailsOf (pageAggOf p1.sessionPageCounts eventMetrics) pages }

/-- The spec's session-index recurrence after the first event: carrying the
current index and the previous event's time, a strictly larger than
30-minute gap increments the index, any other gap keeps it. Stated from the
spec's words, for comparison with pass 1. -/
def specSessionIndicesGo (i : Nat) (last : Int) : List Int → List Nat
  | [] => []
  | t :: ts =>
      let j := if t - last > 1800000 then i + 1 else i
      j :: specSessionIndicesGo j t ts

/-- The spec's session-index sequence for one visitor's event times: the
first event gets index 1, and a new index is assigned exactly when the gap
from the previous event strictly exceeds 1800000 ms. Stated from the spec's
words, for comparison with pass 1. -/
def specSessionIndices : List Int → List Nat
  | [] => []
  | t :: ts => 1 :: specSessionIndicesGo 1 t ts

/-- A stand-in for the external MD5 hex digest in concrete instances (the
hash is an opaque library function to the handler; no theorem depends on its
values beyond being a function). -/
def md5stub : String → String := fun _ => "9e107d9d372bb6826bd81d3542a419d6"

/-- A row for visitor `uid` (as a `user_id` string) viewing page `pid` at
`tms` milliseconds. -/
def userRow (uid pid : String) (tms : Int) : LogRow :=
  ⟨0, pid, .str uid, .null, .null, tms⟩

/-- The end-to-end scenario's five time-sorted rows: visitor `u1` on page
`p1` at 0 s, 100 s, 2000 s, 2100 s, interleaved with visitor `u2` on page
`p2` at 50 s. -/
def c4rows : List LogRow :=
  [userRow "u1" "p1" 0, userRow "u2" "p2" 50000, userRow "u1" "p1" 100000,
   userRow "u1" "p1" 2000000, userRow "u1" "p1" 2100000]

/-- A two-page catalog for the end-to-end scenario. -/
def c4pages : List Page := [⟨"p1", "Page One", 10⟩, ⟨"p2", "Page Two", 20⟩]

/-- A catalog of 21 pages `p0..p20` (titles `t0..t20`), all with the same
`updated_at`. -/
def pages21 : List Page :=
  (List.range 21).map (fun i => ⟨"p" ++ toString i, "t" ++ toString i, 0⟩)

/-!  Helper lemmas about the `Map`/fold embedding. -/

theorem alGet_alSet_self {β : Type} (m : List (String × β)) (k : String) (v : β) :
    alGet (alSet m k v) k = some v := by
  induction m with
  | nil => simp [alGet, alSet]
  | cons kv rest ih =>
      by_cases h : kv.1 = k
      · simp [alSet, h, alGet]
      · simp [alSet, alGet, h, ih]

theorem alGet_alSet_ne {β : Type} (m : List (String × β)) (k k' : String) (v : β)
    (h : k' ≠ k) : alGet (alSet m k v) k' = alGet m k' := by
  have h' : ¬(k = k') := fun e => h e.symm
  induction m with
  | nil => simp [alGet, alSet, h']
  | cons kv rest ih =>
      obtain ⟨k1, v1⟩ := kv
      by_cases hk : k1 = k
      · subst hk
        simp [alSet, alGet, h']
      · simp [alSet, hk, alGet, ih]

theorem alGet_mem {β : Type} (m : List (String × β)) (k : String) (b : β)
    (h : alGet m k = some b) : (k, b) ∈ m := by
  induction m with
  | nil => simp [alGet] at h
  | cons kv rest ih =>
      obtain ⟨k1, v1⟩ := kv
      by_cases hk : k1 = k
      · subst hk
        simp [alGet] at h
        subst h
        exact List.mem_cons_self _ _
      · simp [alGet, hk] at h
        exact List.mem_cons_of_mem _ (ih h)

theorem mem_alSet {β : Type} (m : List (String × β)) (k : String) (v : β)
    (kv : String × β) (h : kv ∈ alSet m k v) : kv ∈ m ∨ kv = (k, v) := by
  induction m with
  | nil =>
      simp [alSet] at h
      exact Or.inr h
  | cons kv' rest ih =>
      obtain ⟨k1, v1⟩ := kv'
      by_cases hk : k1 = k
      · subst hk
        simp only [alSet, if_pos rfl] at h
        rcases List.mem_cons.mp h with h | h
        · exact Or.inr h
        · exact Or.inl (List.mem_cons_of_mem _ h)
      · simp only [alSet, if_neg hk] at h
        rcases List.mem_cons.mp h with h | h
        · exact Or.inl (h ▸ List.mem_cons_self _ _)
        · rcases ih h with h | h
          · exact Or.inl (List.mem_cons_of_mem _ h)
          · exact Or.inr h

/-- The metric `withDurations` emits for `cur`, given its duration. -/
def emOf (cur : SEvent) (d : Int) : EventMetric :=
  ⟨cur.resource_id, cur.visitor_id, cur.session_id, cur.created_ms, d⟩

theorem withDurations_getElem? (l : List SEvent) (i : Nat) :
    (withDurations l)[i]? =
      (l[i]?).map (fun cur =>
        match l[i + 1]? with
        | some next => emOf cur (durationOf cur next)
        | none => emOf cur 30) := by
  induction l generalizing i with
  | nil => simp [withDurations]
  | cons e tail ih =>
      cases tail with
      | nil =>
          match i with
          | 0 => simp [withDurations, emOf]
          | 1 => simp [withDurations]
          | (n + 2) => simp [withDurations]
      | cons e' rest =>
          match i with
          | 0 => simp [withDurations, emOf]
          | (n + 1) =>
              have := ih n
              simpa [withDurations] using this

theorem withDurations_length (l : List SEvent) :
    (withDurations l).length = l.length := by
  induction l with
  | nil => simp [withDurations]
  | cons e tail ih =>
      cases tail with
      | nil => simp [withDurations]
      | cons e' rest => simpa [withDurations] using ih

theorem withDurations_resource_map (l : List SEvent) :
    (withDurations l).map (·.resource_id) = l.map (·.resource_id) := by
  induction l with
  | nil => simp [withDurations]
  | cons e tail ih =>
      cases tail with
      | nil => simp [withDurations]
      | cons e' rest => simpa [withDurations] using ih

theorem withDurations_duration_range (l : List SEvent) (m : EventMetric)
    (hm : m ∈ withDurations l) :
    1 ≤ m.duration_seconds ∧ m.duration_seconds ≤ 1800 := by
  induction l with
  | nil => simp [withDurations] at hm
  | cons e tail ih =>
      cases tail with
      | nil =>
          simp [withDurations] at hm
          subst hm
          constructor <;> norm_num
      | cons e' rest =>
          rcases List.mem_cons.mp hm with h | h
          · subst h
            refine ⟨le_min (by norm_num) (le_max_left _ _), min_le_left _ _⟩
          · exact ih h

/-- Pass 1 appends exactly one event per row, carrying the row's
`resource_id`. -/
theorem pass1_events_resource_map (md5hex : String → String) (rows : List LogRow) :
    ∀ acc : Pass1Acc,
      ((rows.foldl (pass1Step md5hex) acc).events).map (·.resource_id) =
        acc.events.map (·.resource_id) ++ rows.map (·.resource_id) := by
  induction rows with
  | nil => intro acc; simp
  | cons row rest ih =>
      intro acc
      rw [List.foldl_cons, ih]
      simp [pass1Step]

/-- Every event in a bucket of `groupBySession` came from the grouped
list. -/
theorem groupBySession_mem (evs : List SEvent) :
    ∀ (m : List (String × List SEvent)) (kv : String × List SEvent) (e : SEvent),
      kv ∈ evs.foldl
        (fun m evt => alSet m evt.session_id ((alGet m evt.session_id).getD [] ++ [evt])) m →
      e ∈ kv.2 →
      (∃ kv' ∈ m, e ∈ kv'.2) ∨ e ∈ evs := by
  induction evs with
  | nil =>
      intro m kv e hkv he
      exact Or.inl ⟨kv, hkv, he⟩
  | cons evt rest ih =>
      intro m kv e hkv he
      rw [List.foldl_cons] at hkv
      rcases ih _ kv e hkv he with ⟨kv', hkv', he'⟩ | h
      · rcases mem_alSet _ _ _ _ hkv' with h' | h'
        · exact Or.inl ⟨kv', h', he'⟩
        · subst h'
          rcases List.mem_append.mp he' with h'' | h''
          · cases hget : alGet m evt.session_id with
            | none => simp [hget] at h''
            | some b =>
                exact Or.inl ⟨(evt.session_id, b), alGet_mem _ _ _ hget, by
                  simpa [hget] using h''⟩
          · simp at h''
            subst h''
            exact Or.inr (List.mem_cons_self _ _)
      · exact Or.inr (List.mem_cons_of_mem _ h)

/-- Grouping preserves the total number of events. -/
theorem groupBySession_total (evs : List SEvent) :
    ∀ m : List (String × List SEvent),
      (((evs.foldl
          (fun m evt => alSet m evt.session_id ((alGet m evt.session_id).getD [] ++ [evt]))
          m)).map (·.2.length)).sum =
        (m.map (·.2.length)).sum + evs.length := by
  have step : ∀ (m : List (String × List SEvent)) (k : String) (e : SEvent),
      ((alSet m k ((alGet m k).getD [] ++ [e])).map (·.2.length)).sum =
        (m.map (·.2.length)).sum + 1 := by
    intro m k e
    induction m with
    | nil => simp [alSet, alGet]
    | cons kv rest ih =>
        obtain ⟨k1, v1⟩ := kv
        by_cases hk : k1 = k
        · subst hk
          simp [alSet, alGet]
          omega
        · simp [alSet, alGet, hk, ih]
          omega
  induction evs with
  | nil => intro m; simp
  | cons evt rest ih =>
      intro m
      rw [List.foldl_cons, ih, step]
      simp only [List.length_cons]
      omega

/-- One event metric is emitted per input row. -/
theorem eventMetricsOf_length (md5hex : String → String) (rows : List LogRow) :
    (eventMetricsOf md5hex rows).length = rows.length := by
  unfold eventMetricsOf
  rw [List.length_flatten, List.map_map]
  have h1 : ((groupBySession (runPass1 md5hex rows).events).map
      (List.length ∘ fun kv => withDurations (sortSession kv.2))) =
      (groupBySession (runPass1 md5hex rows).events).map (·.2.length) := by
    apply List.map_congr_left
    intro kv _
    simp [withDurations_length, sortSession, List.length_insertionSort]
  rw [h1]
  have h4 : ((groupBySession (runPass1 md5hex rows).events).map (·.2.length)).sum =
      (runPass1 md5hex rows).events.length := by
    have := groupBySession_total (runPass1 md5hex rows).events []
    simpa [groupBySession] using this
  rw [h4]
  have h2 := pass1_events_resource_map md5hex rows ⟨[], [], []⟩
  have h3 : ((runPass1 md5hex rows).events.map (·.resource_id)).length =
      (rows.map (·.resource_id)).length := by
    rw [runPass1, h2]
    simp
  simpa using h3

/-- Every event metric's `resource_id` is the `resource_id` of some input
row. -/
theorem eventMetricsOf_resource (md5hex : String → String) (rows : List LogRow)
    (m : EventMetric) (hm : m ∈ eventMetricsOf md5hex rows) :
    m.resource_id ∈ rows.map (·.resource_id) := by
  unfold eventMetricsOf at hm
  rcases List.mem_flatten.mp hm with ⟨l, hl, hml⟩
  rcases List.mem_map.mp hl with ⟨kv, hkv, rfl⟩
  have h1 : m.resource_id ∈ (withDurations (sortSession kv.2)).map (·.resource_id) :=
    List.mem_map.mpr ⟨m, hml, rfl⟩
  rw [withDurations_resource_map] at h1
  rcases List.mem_map.mp h1 with ⟨e, he, hrid⟩
  have he2 : e ∈ kv.2 := by
    simpa [sortSession, List.mem_insertionSort] using he
  have he3 : e ∈ (runPass1 md5hex rows).events := by
    rcases groupBySession_mem _ _ _ _ hkv he2 with ⟨kv', hkv', _⟩ | h
    · simp at hkv'
    · exact h
  have h4 : e.resource_id ∈ ((runPass1 md5hex rows).events).map (·.resource_id) :=
    List.mem_map.mpr ⟨e, he3, rfl⟩
  rw [runPass1, pass1_events_resource_map] at h4
  simpa [hrid] using h4

/-- A resource that no event metric mentions is absent from `pageAgg`. -/
theorem pageAggOf_get_none (spc : List (String × Nat)) (ems : List EventMetric)
    (rid : String) (h : ∀ e ∈ ems, e.resource_id ≠ rid) :
    alGet (pageAggOf spc ems) rid = none := by
  have aux : ∀ (l : List EventMetric) (m : List (String × PageAgg)),
      (∀ e ∈ l, e.resource_id ≠ rid) → alGet m rid = none →
      alGet (l.foldl (pageAggStep spc) m) rid = none := by
    intro l
    induction l with
    | nil => intro m _ hm; simpa using hm
    | cons e rest ih =>
        intro m hl hm
        rw [List.foldl_cons]
        apply ih
        · intro e' he'
          exact hl e' (List.mem_cons_of_mem _ he')
        · unfold pageAggStep
          rw [alGet_alSet_ne]
          · exact hm
          · exact fun e' => hl e (List.mem_cons_self _ _) e'.symm
  exact aux ems [] h rfl

/-- `buildVisitorId` on a `userRow` with a nonempty user id resolves to that
id. -/
theorem buildVisitorId_userRow (md5hex : String → String) (v pid : String)
    (hv : v ≠ "") (t : Int) : buildVisitorId md5hex (userRow v pid t) = v := by
  simp [buildVisitorId, userRow, JSVal.truthy, JSVal.toStr, hv]

/-- Pass 1 on a single visitor's rows, from a state already holding that
visitor: the emitted session ids follow the spec's index recurrence. -/
theorem pass1_single_aux (md5hex : String → String) (v pid : String) (hv : v ≠ "")
    (ts : List Int) :
    ∀ (acc : Pass1Acc) (last : Int) (i : Nat),
      alGet acc.visitorState v = some ⟨some last, i⟩ →
      (((ts.map (userRow v pid)).foldl (pass1Step md5hex) acc).events).map (·.session_id) =
        acc.events.map (·.session_id) ++
          (specSessionIndicesGo i last ts).map (fun j => v ++ "-" ++ toString j) := by
  induction ts with
  | nil => intro acc last i _; simp [specSessionIndicesGo]
  | cons t ts ih =>
      intro acc last i hacc
      have hb : buildVisitorId md5hex (userRow v pid t) = v :=
        buildVisitorId_userRow md5hex v pid hv t
      have hb' : buildVisitorId md5hex
          { id := 0, resource_id := pid, user_id := JSVal.str v, ip_address := JSVal.null,
            user_agent := JSVal.null, created_ms := t } = v := hb
      have hmul : (30 * 60 * 1000 : Int) = 1800000 := by norm_num
      have hstate :
          pass1Step md5hex acc (userRow v pid t) =
            { visitorState :=
                alSet acc.visitorState v ⟨some t, if t - last > 1800000 then i + 1 else i⟩
              sessionPageCounts :=
                alSet acc.sessionPageCounts
                  (v ++ "-" ++ toString (if t - last > 1800000 then i + 1 else i))
                  ((alGet acc.sessionPageCounts
                      (v ++ "-" ++ toString (if t - last > 1800000 then i + 1 else i))).getD 0 + 1)
              events :=
                acc.events ++
                  [⟨pid, v, v ++ "-" ++ toString (if t - last > 1800000 then i + 1 else i), t⟩] } := by
        simp only [pass1Step, userRow, hb', hacc, Option.getD_some, hmul]
      rw [List.map_cons, List.foldl_cons, hstate,
        ih _ t (if t - last > 1800000 then i + 1 else i) (by simp [alGet_alSet_self])]
      simp [specSessionIndicesGo]

theorem pageDetailsOf_sorted (agg : List (String × PageAgg)) (pages : List Page) :
    (pageDetailsOf agg pages).Pairwise pageDetailLe := by
  unfold pageDetailsOf
  exact List.Pairwise.sublist (List.take_sublist _ _)
    (List.sorted_insertionSort pageDetailLe _)

/-- C2: for every event with a successor in its (time-sorted) session,
`durationSeconds` is the rounded gap to that successor clamped to
`[1, 1800]`; the last event of a session gets the constant `30`; a 5000 s
gap clamps to 1800 and a 0 s gap to 1. -/
theorem claim_C2 (es : List SEvent) (i : Nat) (cur next : SEvent)
    (hcur : (sortSession es)[i]? = some cur) :
    ((sortSession es)[i + 1]? = some next →
      (withDurations (sortSession es))[i]? =
        some (emOf cur (min 1800 (max 1
          (jsRoundDiv (next.created_ms - cur.created_ms) 1000))))) ∧
    ((sortSession es)[i + 1]? = none →
      (withDurations (sortSession es))[i]? = some (emOf cur 30)) ∧
    withDurations (sortSession
        [⟨"p", "v", "v-1", 0⟩, ⟨"p", "v", "v-1", 5000000⟩]) =
      [emOf ⟨"p", "v", "v-1", 0⟩ 1800, emOf ⟨"p", "v", "v-1", 5000000⟩ 30] ∧
    withDurations (sortSession [⟨"p", "v", "v-1", 0⟩, ⟨"p", "v", "v-1", 0⟩]) =
      [emOf ⟨"p", "v", "v-1", 0⟩ 1, emOf ⟨"p", "v", "v-1", 0⟩ 30] := by
  refine ⟨?_, ?_, by decide, by decide⟩
  · intro hnext
    rw [withDurations_getElem?, hcur, hnext]
    simp [durationOf]
  · intro hnone
    rw [withDurations_getElem?, hcur, hnone]
    simp

theorem claim_C2_witness :
    (withDurations (sortSession
        [⟨"p", "v", "v-1", 0⟩, ⟨"p", "v", "v-1", 5000000⟩]))[0]? =
      some (emOf ⟨"p", "v", "v-1", 0⟩
        (min 1800 (max 1 (jsRoundDiv (5000000 - 0) 1000)))) ∧
    (withDurations (sortSession
        [⟨"p", "v", "v-1", 0⟩, ⟨"p", "v", "v-1", 5000000⟩]))[1]? =
      some (emOf ⟨"p", "v", "v-1", 5000000⟩ 30) :=
  ⟨(claim_C2 [⟨"p", "v", "v-1", 0⟩, ⟨"p", "v", "v-1", 5000000⟩] 0
      ⟨"p", "v", "v-1", 0⟩ ⟨"p", "v", "v-1", 5000000⟩ (by decide)).1 (by decide),
   (claim_C2 [⟨"p", "v", "v-1", 0⟩, ⟨"p", "v", "v-1", 5000000⟩] 1
      ⟨"p", "v", "v-1", 5000000⟩ ⟨"p", "v", "v-1", 5000000⟩ (by decide)).2.1 (by decide)⟩

/-- C3 (as stated) is false: an event whose `userId` is the number `0`
(present, but JS-falsy) with a non-empty `ipAddress` resolves to the IP
string, not to `"0"`. -/
theorem claim_C3_counterexample :
    JSVal.num 0 ≠ JSVal.null ∧ (JSVal.num 0).toStr = "0" ∧
    buildVisitorId md5stub ⟨1, "p1", JSVal.num 0, JSVal.str "1.2.3.4", JSVal.null, 0⟩ =
      "1.2.3.4" ∧
    buildVisitorId md5stub ⟨1, "p1", JSVal.num 0, JSVal.str "1.2.3.4", JSVal.null, 0⟩ ≠
      "0" := by
  decide

/-- C3 (amended): the visitor key is the stringified `userId` when `userId`
is truthy (non-null and neither the number 0 nor the empty string);
otherwise the stringified `ipAddress` when truthy; otherwise
`"ua:" ++` the first 12 hex characters of the MD5 digest of `userAgent`
when truthy; otherwise `"unknown"`; in particular `userId="42"` with
`ipAddress="1.2.3.4"` resolves to `"42"`. -/
theorem claim_C3 (md5hex : String → String) (row : LogRow) :
    (row.user_id.truthy = true → buildVisitorId md5hex row = row.user_id.toStr) ∧
    (row.user_id.truthy = false → row.ip_address.truthy = true →
      buildVisitorId md5hex row = row.ip_address.toStr) ∧
    (row.user_id.truthy = false → row.ip_address.truthy = false →
      row.user_agent.truthy = true →
      buildVisitorId md5hex row = "ua:" ++ (md5hex row.user_agent.toStr).take 12) ∧
    (row.user_id.truthy = false → row.ip_address.truthy = false →
      row.user_agent.truthy = false → buildVisitorId md5hex row = "unknown") ∧
    buildVisitorId md5hex ⟨1, "p1", JSVal.str "42", JSVal.str "1.2.3.4", JSVal.null, 0⟩ =
      "42" := by
  refine ⟨?_, ?_, ?_, ?_, rfl⟩ <;> intros <;> simp_all [buildVisitorId]

theorem claim_C3_witness :
    buildVisitorId md5stub ⟨1, "p1", JSVal.str "42", JSVal.str "1.2.3.4", JSVal.null, 0⟩ =
      (JSVal.str "42").toStr ∧
    buildVisitorId md5stub ⟨2, "p1", JSVal.null, JSVal.str "9.9.9.9", JSVal.null, 0⟩ =
      (JSVal.str "9.9.9.9").toStr ∧
    buildVisitorId md5stub ⟨3, "p1", JSVal.null, JSVal.null, JSVal.str "Mozilla", 0⟩ =
      "ua:" ++ (md5stub (JSVal.str "Mozilla").toStr).take 12 ∧
    buildVisitorId md5stub ⟨4, "p1", JSVal.null, JSVal.null, JSVal.null, 0⟩ = "unknown" :=
  ⟨(claim_C3 md5stub _).1 (by decide),
   (claim_C3 md5stub _).2.1 (by decide) (by decide),
   (claim_C3 md5stub _).2.2.1 (by decide) (by decide) (by decide),
   (claim_C3 md5stub _).2.2.2.1 (by decide) (by decide) (by decide)⟩

/-- C4: the end-to-end scenario (u1 on p1 at 0 s, 100 s, 2000 s, 2100 s and
u2 on p2 at 50 s, time-sorted) yields totalSessions 3, totalPageViews 5,
uniqueVisitors 2, singlePageSessions 1, bounceRatio 1/3. -/
theorem claim_C4 :
    (analyticsOf md5stub c4rows c4pages).summary.total_sessions = 3 ∧
    (analyticsOf md5stub c4rows c4pages).summary.total_page_views = 5 ∧
    (analyticsOf md5stub c4rows c4pages).summary.unique_visitors = 2 ∧
    singlePageSessionsOf (analyticsOf md5stub c4rows c4pages).sessionPageCounts = 1 ∧
    (analyticsOf md5stub c4rows c4pages).summary.bounce_ratio = 1 / 3 := by
  refine ⟨by decide, by decide, by decide, by decide, ?_⟩
  have hspc : (analyticsOf md5stub c4rows c4pages).sessionPageCounts =
      [("u1-1", 2), ("u2-1", 1), ("u1-2", 2)] := by decide
  have hbr : (analyticsOf md5stub c4rows c4pages).summary.bounce_ratio =
      bounceRatioOf (analyticsOf md5stub c4rows c4pages).sessionPageCounts := rfl
  rw [hbr, hspc]
  norm_num [bounceRatioOf, singlePageSessionsOf]

/-- C7: `pageDetails` is sorted by views descending with ties broken by the
page's `updated_at` descending, and holds at most 20 entries. -/
theorem claim_C7 (md5hex : String → String) (rows : List LogRow) (pages : List Page) :
    (analyticsOf md5hex rows pages).pageDetails.Pairwise
      (fun a b => b.views < a.views ∨ (b.views = a.views ∧ b.updated_ms ≤ a.updated_ms)) ∧
    (analyticsOf md5hex rows pages).pageDetails.length ≤ 20 := by
  constructor
  · exact pageDetailsOf_sorted _ pages
  · show (pageDetailsOf _ pages).length ≤ 20
    unfold pageDetailsOf
    rw [List.length_take]
    exact min_le_left _ _

/-- C8: the reconstruction is a pure function of its inputs — all lookup
tables (visitor state, session page counts, session groups, page
aggregates) are fold-local accumulators inside `analyticsOf`, so two runs
on the same input agree in every output field. -/
theorem claim_C8 (md5hex : String → String) (rows : List LogRow) (pages : List Page) :
    let run1 := analyticsOf md5hex rows pages
    let run2 := analyticsOf md5hex rows pages
    run1.eventMetrics = run2.eventMetrics ∧
    run1.sessionPageCounts = run2.sessionPageCounts ∧
    run1.summary = run2.summary ∧
    run1.pageDetails = run2.pageDetails :=
  ⟨rfl, rfl, rfl, rfl⟩

/-- C9: presence is JS truthiness — `userId = 0` (or `""`) with a non-empty
IP resolves to the IP; an empty `ipAddress` falls through to the
user-agent hash or `"unknown"`. -/
theorem claim_C9 (md5hex : String → String) (i : Nat) (pid : String) (t : Int)
    (ip : String) (hip : ip ≠ "") :
    (∀ ua : JSVal,
      buildVisitorId md5hex ⟨i, pid, JSVal.num 0, JSVal.str ip, ua, t⟩ = ip) ∧
    (∀ ua : JSVal,
      buildVisitorId md5hex ⟨i, pid, JSVal.str "", JSVal.str ip, ua, t⟩ = ip) ∧
    (∀ s : String, s ≠ "" →
      buildVisitorId md5hex ⟨i, pid, JSVal.num 0, JSVal.str "", JSVal.str s, t⟩ =
        "ua:" ++ (md5hex s).take 12) ∧
    buildVisitorId md5hex ⟨i, pid, JSVal.num 0, JSVal.str "", JSVal.null, t⟩ =
      "unknown" := by
  refine ⟨?_, ?_, ?_, rfl⟩
  · intro ua
    simp [buildVisitorId, JSVal.truthy, JSVal.toStr, hip]
  · intro ua
    simp [buildVisitorId, JSVal.truthy, JSVal.toStr, hip]
  · intro s hs
    simp [buildVisitorId, JSVal.truthy, JSVal.toStr, hs]

theorem claim_C9_witness :
    buildVisitorId md5stub ⟨1, "p1", JSVal.num 0, JSVal.str "1.2.3.4", JSVal.null, 0⟩ =
      "1.2.3.4" ∧
    buildVisitorId md5stub ⟨1, "p1", JSVal.num 0, JSVal.str "", JSVal.str "Mozilla", 0⟩ =
      "ua:" ++ (md5stub "Mozilla").take 12 :=
  ⟨((claim_C9 md5stub 1 "p1" 0 "1.2.3.4" (by decide)).1 JSVal.null),
   ((claim_C9 md5stub 1 "p1" 0 "1.2.3.4" (by decide)).2.2.1 "Mozilla" (by decide))⟩

/-- C1: for a single visitor processed in ascending time order, pass 1's
emitted session ids follow the spec recurrence — index 1 for the first
event, and a new index exactly when the gap strictly exceeds 1800000 ms; in
particular 1801 s apart splits into indices 1 and 2 while 1800 s apart
stays in session 1. -/
theorem claim_C1 (md5hex : String → String) (v pid : String) (hv : v ≠ "")
    (ts : List Int) (hasc : ts.Chain' (· ≤ ·)) :
    ((runPass1 md5hex (ts.map (userRow v pid))).events).map (·.session_id) =
      (specSessionIndices ts).map (fun j => v ++ "-" ++ toString j) ∧
    ((runPass1 md5stub [userRow "u" "p" 0, userRow "u" "p" 1801000]).events).map
        (·.session_id) = ["u-1", "u-2"] ∧
    ((runPass1 md5stub [userRow "u" "p" 0, userRow "u" "p" 1800000]).events).map
        (·.session_id) = ["u-1", "u-1"] := by
  refine ⟨?_, by decide, by decide⟩
  cases ts with
  | nil => simp [runPass1, specSessionIndices]
  | cons t ts' =>
      have hb' : buildVisitorId md5hex
          { id := 0, resource_id := pid, user_id := JSVal.str v, ip_address := JSVal.null,
            user_agent := JSVal.null, created_ms := t } = v :=
        buildVisitorId_userRow md5hex v pid hv t
      have hstep : pass1Step md5hex ⟨[], [], []⟩ (userRow v pid t) =
          ⟨[(v, ⟨some t, 1⟩)], [(v ++ "-" ++ toString 1, 1)],
            [⟨pid, v, v ++ "-" ++ toString 1, t⟩]⟩ := by
        simp only [pass1Step, userRow, hb', alGet, Option.getD_none, alSet]
        rfl
      unfold runPass1
      rw [List.map_cons, List.foldl_cons, hstep,
        pass1_single_aux md5hex v pid hv ts' _ t 1 (by simp [alGet])]
      simp [specSessionIndices]

theorem claim_C1_witness :
    ((runPass1 md5stub ([0, 1801000].map (userRow "u1" "q"))).events).map
        (·.session_id) =
      (specSessionIndices [0, 1801000]).map (fun j => "u1" ++ "-" ++ toString j) :=
  (claim_C1 md5stub "u1" "q" (by decide) [0, 1801000]
    (List.chain'_cons.mpr ⟨by norm_num, List.chain'_singleton _⟩)).1

/-- C5: bounceRatio is single-page sessions over total sessions and
avgDurationSeconds is the duration sum over the metric count whenever the
denominators are non-zero, and the empty input yields an all-zero summary
with empty metric and session lists (the embedding is a total function, so
no exception is possible). -/
theorem claim_C5 (md5hex : String → String) (rows : List LogRow) (pages : List Page) :
    ((analyticsOf md5hex rows pages).summary.total_sessions ≠ 0 →
      (analyticsOf md5hex rows pages).summary.bounce_ratio =
        (singlePageSessionsOf (analyticsOf md5hex rows pages).sessionPageCounts : ℚ) /
          ((analyticsOf md5hex rows pages).summary.total_sessions : ℚ)) ∧
    ((analyticsOf md5hex rows pages).summary.total_page_views ≠ 0 →
      (analyticsOf md5hex rows pages).summary.avg_duration_seconds =
        ((((analyticsOf md5hex rows pages).eventMetrics.map
            (·.duration_seconds)).sum : ℤ) : ℚ) /
          ((analyticsOf md5hex rows pages).summary.total_page_views : ℚ)) ∧
    (rows = [] →
      (analyticsOf md5hex rows pages).summary =
        { total_sessions := 0, total_page_views := 0, unique_visitors := 0,
          avg_duration_seconds := 0, bounce_ratio := 0 } ∧
      (analyticsOf md5hex rows pages).eventMetrics = [] ∧
      (analyticsOf md5hex rows pages).sessionPageCounts = []) := by
  refine ⟨?_, ?_, ?_⟩
  · intro h
    show bounceRatioOf _ = _
    have h' : 0 < (runPass1 md5hex rows).sessionPageCounts.length :=
      Nat.pos_of_ne_zero h
    rw [bounceRatioOf, if_pos h']
    rfl
  · intro h
    show avgDurationSecondsOf _ = _
    have h' : 0 < (eventMetricsOf md5hex rows).length := Nat.pos_of_ne_zero h
    rw [avgDurationSecondsOf, if_pos h']
    rfl
  · rintro rfl
    exact ⟨rfl, rfl, rfl⟩

theorem claim_C5_witness :
    (analyticsOf md5stub c4rows c4pages).summary.bounce_ratio =
      (singlePageSessionsOf (analyticsOf md5stub c4rows c4pages).sessionPageCounts : ℚ) /
        ((analyticsOf md5stub c4rows c4pages).summary.total_sessions : ℚ) ∧
    (analyticsOf md5stub ([] : List LogRow) c4pages).eventMetrics = [] :=
  ⟨(claim_C5 md5stub c4rows c4pages).1 (by decide),
   ((claim_C5 md5stub [] c4pages).2.2 rfl).2.1⟩

/-- C6 (as stated) is false: with 21 catalog pages and no events at all,
page `p20` matches no event yet is cut by the `.slice(0, 20)` truncation and
does not appear in `pageDetails`. -/
theorem claim_C6_counterexample :
    (⟨"p20", "t20", 0⟩ : Page) ∈ pages21 ∧
    (analyticsOf md5stub [] pages21).eventMetrics = [] ∧
    ((analyticsOf md5stub [] pages21).pageDetails.map (·.title)).contains "t20" =
      false := by
  exact ⟨by decide, rfl, by decide⟩

/-- C6 (amended): provided the catalog holds at most 20 pages (the output
is truncated to its first 20 entries), every catalog page matching no input
event still appears in `pageDetails` with views 0, unique visitors 0,
average time 0 and bounce rate 0. -/
theorem claim_C6 (md5hex : String → String) (rows : List LogRow) (pages : List Page)
    (hlen : pages.length ≤ 20) (p : Page) (hp : p ∈ pages)
    (hmiss : ∀ row ∈ rows, row.resource_id ≠ p.id) :
    ∃ d ∈ (analyticsOf md5hex rows pages).pageDetails,
      d.title = p.title ∧ d.views = 0 ∧ d.unique_visitors = 0 ∧
      d.avg_time = 0 ∧ d.bounce_rate = 0 := by
  have hnome : ∀ m ∈ eventMetricsOf md5hex rows, m.resource_id ≠ p.id := by
    intro m hm heq
    rcases List.mem_map.mp (eventMetricsOf_resource md5hex rows m hm) with ⟨row, hrow, hr⟩
    exact hmiss row hrow (by rw [hr, heq])
  set agg : List (String × PageAgg) :=
    pageAggOf (runPass1 md5hex rows).sessionPageCounts (eventMetricsOf md5hex rows)
    with haggdef
  have hagg : alGet agg p.id = none := pageAggOf_get_none _ _ _ hnome
  have hd : mkPageDetail agg p =
      { title := p.title, views := 0, unique_visitors := 0, avg_time := 0,
        bounce_rate := jsRoundQ (0 * 100), updated_ms := p.updated_ms } := by
    simp [mkPageDetail, hagg]
  have hbr : jsRoundQ ((0 : ℚ) * 100) = 0 := by
    rw [jsRoundQ]
    norm_num
  refine ⟨mkPageDetail agg p, ?_, ?_⟩
  · show mkPageDetail agg p ∈ pageDetailsOf agg pages
    unfold pageDetailsOf
    have hlen2 : ((pages.map (mkPageDetail agg)).insertionSort pageDetailLe).length ≤ 20 := by
      rw [List.length_insertionSort, List.length_map]
      exact hlen
    rw [List.take_of_length_le hlen2]
    exact (List.mem_insertionSort pageDetailLe).mpr (List.mem_map_of_mem _ hp)
  · rw [hd]
    exact ⟨rfl, rfl, rfl, rfl, hbr⟩

theorem claim_C6_witness :
    ∃ d ∈ (analyticsOf md5stub [] c4pages).pageDetails,
      d.title = "Page One" ∧ d.views = 0 ∧ d.unique_visitors = 0 ∧
      d.avg_time = 0 ∧ d.bounce_rate = 0 :=
  claim_C6 md5stub [] c4pages (by decide) ⟨"p1", "Page One", 10⟩ (by decide)
    (by intro row hrow; simp at hrow)

/-- C10: every emitted event metric has an integer duration in `[1, 1800]`
(the last-event fallback 30 included), and exactly one metric is emitted
per input event. -/
theorem claim_C10 (md5hex : String → String) (rows : List LogRow) :
    (∀ m ∈ eventMetricsOf md5hex rows,
      1 ≤ m.duration_seconds ∧ m.duration_seconds ≤ 1800) ∧
    (eventMetricsOf md5hex rows).length = rows.length := by
  refine ⟨?_, eventMetricsOf_length md5hex rows⟩
  intro m hm
  unfold eventMetricsOf at hm
  rcases List.mem_flatten.mp hm with ⟨l, hl, hml⟩
  rcases List.mem_map.mp hl with ⟨kv, _, rfl⟩
  exact withDurations_duration_range _ m hml

theorem claim_C10_witness :
    (1 ≤ (⟨"p1", "u1", "u1-1", 0, 100⟩ : EventMetric).duration_seconds ∧
      (⟨"p1", "u1", "u1-1", 0, 100⟩ : EventMetric).duration_seconds ≤ 1800) ∧
    (eventMetricsOf md5stub c4rows).length = c4rows.length :=
  ⟨(claim_C10 md5stub c4rows).1 ⟨"p1", "u1", "u1-1", 0, 100⟩ (by decide),
   (claim_C10 md5stub c4rows).2⟩

end StartPro
